import Mathlib

/-!
Verification of the Biblioteca loan tracker (src/05-week/01-session/Biblioteca/app.py).

Shallow embedding conventions:
* Python object state (the three collections held by `BaseDatos`) becomes an
  explicit record `BaseDatos` threaded through each operation.
* An operation that can raise becomes a function returning
  `Option String × BaseDatos` (the message of the raised `ValueError`, if any,
  together with the state as mutated up to the raise point) or
  `Except String Int × BaseDatos` when the Python method returns a value.
* `datetime` values (`Prestamo.fecha`, `datetime.now()`) are modeled as integer
  epoch seconds; the ISO-string layer is an order-preserving bijection and is
  abstracted away.  A Python `timedelta(days=7)` is `7 * SEG_DIA` seconds and
  `timedelta.days` is floor division by `SEG_DIA`, which is `Int.fdiv`.
* The JSON files are modeled at the record level: a serialized dataclass is an
  association list of field name to value (`Registro`), a file is
  `Option (List Registro)` (`none` = the file does not exist).
-/

namespace Biblioteca

/-- `DIAS_LIMITE = 7` in the source: days of grace before a loan is overdue. -/
def DIAS_LIMITE : Int := 7

/-- `MULTA_DIA = 1500` in the source: fine per full overdue day. -/
def MULTA_DIA : Int := 1500

/-- Seconds in a day; timestamps are modeled as integer epoch seconds. -/
def SEG_DIA : Int := 86400

/-- Dataclass `Socio`: a library member. -/
structure Socio where
  documento : String
  nombre : String
deriving DecidableEq, Repr

/-- Dataclass `Material`: a lendable item.  `stock` is a Python `int`, hence `Int`. -/
structure Material where
  titulo : String
  categoria : String
  stock : Int
deriving DecidableEq, Repr

/-- Dataclass `Prestamo`: an open loan; `fecha` is the loan timestamp. -/
structure Prestamo where
  doc : String
  titulo : String
  fecha : Int
deriving DecidableEq, Repr

/-- The in-memory state of `BaseDatos`: the three collections. -/
structure BaseDatos where
  socios : List Socio
  materiales : List Material
  prestamos : List Prestamo
deriving DecidableEq, Repr

/-- Error message of `registrar_socio` on a duplicate document. -/
def msgSocioDup : String := "Ya existe un socio con ese documento."

/-- Error message of `registrar_material` on a duplicate title. -/
def msgMaterialDup : String := "Ese material ya existe."

/-- Error message of `prestar` when the member does not exist. -/
def msgSocioNoExiste : String := "El socio no existe."

/-- Error message of `prestar` when the material does not exist. -/
def msgMaterialNoExiste : String := "El material no existe."

/-- Error message of `prestar` when no copies are available. -/
def msgSinStock : String := "Sin ejemplares disponibles."

/-- Error message of `devolver` when no matching loan exists. -/
def msgPrestamoNoExiste : String := "Ese préstamo no existe."

/-- The `StopIteration` raised by `next(m for m in ...)` in `devolver` when no
material carries the returned title. -/
def msgStopIteration : String := "StopIteration"

/-- The predicate `s.documento == doc` used by `registrar_socio` and `prestar`. -/
def matchSocio (doc : String) (s : Socio) : Bool :=
  s.documento == doc

/-- The predicate `m.titulo == titulo` used to look a material up by title. -/
def matchMaterial (titulo : String) (m : Material) : Bool :=
  m.titulo == titulo

/-- The predicate `p.doc == doc and p.titulo == titulo` used by `devolver`. -/
def matchPrestamo (doc titulo : String) (p : Prestamo) : Bool :=
  p.doc == doc && p.titulo == titulo

/-- `material.stock -= 1` applied to the object found by
`next(m for m in materiales if m.titulo == titulo)`: decrement the stock of the
first material with the given title, leaving the rest of the list unchanged. -/
def decStockFirst : List Material → String → List Material
  | [], _ => []
  | m :: ms, t =>
    if m.titulo == t then { m with stock := m.stock - 1 } :: ms
    else m :: decStockFirst ms t

/-- `material.stock += 1` applied to the first material with the given title. -/
def incStockFirst : List Material → String → List Material
  | [], _ => []
  | m :: ms, t =>
    if m.titulo == t then { m with stock := m.stock + 1 } :: ms
    else m :: incStockFirst ms t

/-- Python `list.remove(p)`: delete the first element equal to `p`.  In
`devolver` the element is always present, so the empty case is unreachable. -/
def removeFirstEq : List Prestamo → Prestamo → List Prestamo
  | [], _ => []
  | q :: qs, p => if q = p then qs else q :: removeFirstEq qs p

/-- `GestorPrestamos.registrar_socio(nombre, doc)`.  (The trailing
`guardar_datos` call touches only the files, modeled separately.) -/
def registrar_socio (db : BaseDatos) (nombre doc : String) :
    Option String × BaseDatos :=
  if db.socios.any (matchSocio doc) then
    (some msgSocioDup, db)
  else
    (none, { db with socios := db.socios ++ [⟨doc, nombre⟩] })

/-- `GestorPrestamos.registrar_material(titulo, categoria, stock)`. -/
def registrar_material (db : BaseDatos) (titulo categoria : String) (stock : Int) :
    Option String × BaseDatos :=
  if db.materiales.any (matchMaterial titulo) then
    (some msgMaterialDup, db)
  else
    (none, { db with materiales := db.materiales ++ [⟨titulo, categoria, stock⟩] })

/-- `GestorPrestamos.prestar(doc, titulo)`; `now` is the value of
`datetime.now()` at the append. -/
def prestar (db : BaseDatos) (doc titulo : String) (now : Int) :
    Option String × BaseDatos :=
  match db.socios.find? (matchSocio doc) with
  | none => (some msgSocioNoExiste, db)
  | some _ =>
    match db.materiales.find? (matchMaterial titulo) with
    | none => (some msgMaterialNoExiste, db)
    | some material =>
      if material.stock ≤ 0 then
        (some msgSinStock, db)
      else
        (none, { db with
                  materiales := decStockFirst db.materiales titulo,
                  prestamos := db.prestamos ++ [⟨doc, titulo, now⟩] })

/-- `GestorPrestamos.calcular_multa(prestamo)`; `now` is `datetime.now()`.
`(hoy - limite).days` on a positive `timedelta` is floor division of the
elapsed seconds by one day, hence `Int.fdiv`. -/
def calcular_multa (p : Prestamo) (now : Int) : Int :=
  if now ≤ p.fecha + DIAS_LIMITE * SEG_DIA then 0
  else Int.fdiv (now - (p.fecha + DIAS_LIMITE * SEG_DIA)) SEG_DIA * MULTA_DIA

/-- `GestorPrestamos.devolver(doc, titulo)`.  The loan is removed before the
material lookup, so a missing material (`StopIteration` from the bare `next`)
leaves the loan already removed. -/
def devolver (db : BaseDatos) (doc titulo : String) (now : Int) :
    Except String Int × BaseDatos :=
  match db.prestamos.find? (matchPrestamo doc titulo) with
  | none => (Except.error msgPrestamoNoExiste, db)
  | some prestamo =>
    match db.materiales.find? (matchMaterial titulo) with
    | none => (Except.error msgStopIteration,
               { db with prestamos := removeFirstEq db.prestamos prestamo })
    | some _ =>
      (Except.ok (calcular_multa prestamo now),
       { db with
          prestamos := removeFirstEq db.prestamos prestamo,
          materiales := incStockFirst db.materiales titulo })

/-- `GestorPrestamos.prestamos_activos()`. -/
def prestamos_activos (db : BaseDatos) : List Prestamo :=
  db.prestamos

/-- The accumulation loop of `prestamos_vencidos`, translated recursively:
append `(p, multa)` for each loan whose fine is positive, in order. -/
def vencidosDesde (now : Int) : List Prestamo → List (Prestamo × Int)
  | [] => []
  | p :: ps =>
    if calcular_multa p now > 0 then (p, calcular_multa p now) :: vencidosDesde now ps
    else vencidosDesde now ps

/-- `GestorPrestamos.prestamos_vencidos()`; `now` is `datetime.now()`. -/
def prestamos_vencidos (db : BaseDatos) (now : Int) : List (Prestamo × Int) :=
  vencidosDesde now db.prestamos

/-! Persistence layer (`BaseDatos.cargar_datos` / `guardar_datos`), modeled at
the record level: `json.dumps`/`json.loads` of a list of flat dataclass dicts
round-trips the association lists themselves, so a serialized collection is a
`List Registro`. -/

/-- A JSON scalar appearing in these records: a string or an integer. -/
inductive JVal where
  | str : String → JVal
  | int : Int → JVal
deriving DecidableEq, Repr

/-- A serialized dataclass: ordered field-name/value pairs (`asdict` output). -/
def Registro : Type := List (String × JVal)

instance : DecidableEq Registro := by
  unfold Registro
  infer_instance

/-- Field name `documento`. -/
def kDocumento : String := "documento"

/-- Field name `nombre`. -/
def kNombre : String := "nombre"

/-- Field name `titulo`. -/
def kTitulo : String := "titulo"

/-- Field name `categoria`. -/
def kCategoria : String := "categoria"

/-- Field name `stock`. -/
def kStock : String := "stock"

/-- Field name `fecha`. -/
def kFecha : String := "fecha"

/-- Field name `doc`. -/
def kDoc : String := "doc"

/-- `asdict(socio)`: field order as declared in the dataclass. -/
def asdictSocio (s : Socio) : Registro :=
  [(kDocumento, JVal.str s.documento), (kNombre, JVal.str s.nombre)]

/-- `asdict(material)`. -/
def asdictMaterial (m : Material) : Registro :=
  [(kTitulo, JVal.str m.titulo), (kCategoria, JVal.str m.categoria),
   (kStock, JVal.int m.stock)]

/-- `asdict(prestamo)` (the `fecha` ISO string modeled as its epoch seconds). -/
def asdictPrestamo (p : Prestamo) : Registro :=
  [(kDoc, JVal.str p.doc), (kTitulo, JVal.str p.titulo), (kFecha, JVal.int p.fecha)]

/-- Look a string field up in a record. -/
def getStr (r : Registro) (k : String) : Option String :=
  match List.lookup k r with
  | some (JVal.str s) => some s
  | _ => none

/-- Look an integer field up in a record. -/
def getInt (r : Registro) (k : String) : Option Int :=
  match List.lookup k r with
  | some (JVal.int n) => some n
  | _ => none

/-- `Socio(**d)`: succeeds exactly when the record carries the two expected
fields (in any order) with string values and nothing else. -/
def socioFromDict (r : Registro) : Option Socio :=
  if r.length = 2 then
    match getStr r kDocumento, getStr r kNombre with
    | some d, some n => some ⟨d, n⟩
    | _, _ => none
  else none

/-- `Material(**d)`. -/
def materialFromDict (r : Registro) : Option Material :=
  if r.length = 3 then
    match getStr r kTitulo, getStr r kCategoria, getInt r kStock with
    | some t, some c, some s => some ⟨t, c, s⟩
    | _, _, _ => none
  else none

/-- `Prestamo(**d)`. -/
def prestamoFromDict (r : Registro) : Option Prestamo :=
  if r.length = 3 then
    match getStr r kDoc, getStr r kTitulo, getInt r kFecha with
    | some d, some t, some f => some ⟨d, t, f⟩
    | _, _, _ => none
  else none

/-- `[C(**d) for d in json.loads(...)]`: the whole list parses or the first bad
record raises (no partial recovery). -/
def parseLista {α : Type} (f : Registro → Option α) : List Registro → Option (List α)
  | [] => some []
  | r :: rs =>
    match f r, parseLista f rs with
    | some x, some xs => some (x :: xs)
    | _, _ => none

/-- The three backing documents; `none` means the file does not exist. -/
structure Archivos where
  socios : Option (List Registro)
  materiales : Option (List Registro)
  prestamos : Option (List Registro)
deriving DecidableEq

/-- `BaseDatos.guardar_datos`: serialize all three collections, overwriting. -/
def guardar_datos (db : BaseDatos) : Archivos :=
  ⟨some (db.socios.map asdictSocio),
   some (db.materiales.map asdictMaterial),
   some (db.prestamos.map asdictPrestamo)⟩

/-- One clause of `cargar_datos`: an absent file leaves the collection empty
(the constructor initialized it to `[]`); a present file must parse. -/
def cargarColeccion {α : Type} (f : Registro → Option α) :
    Option (List Registro) → Option (List α)
  | none => some []
  | some rs => parseLista f rs

/-- `BaseDatos.cargar_datos` (run at construction): `none` is the
DeserializationError path. -/
def cargar_datos (fs : Archivos) : Option BaseDatos :=
  match cargarColeccion socioFromDict fs.socios,
        cargarColeccion materialFromDict fs.materiales,
        cargarColeccion prestamoFromDict fs.prestamos with
  | some s, some m, some p => some ⟨s, m, p⟩
  | _, _, _ => none

/-! Concrete inputs used to instantiate the theorems below. -/

/-- A concrete member document. -/
def dW : String := "doc1"

/-- A concrete member name. -/
def nW : String := "Ana"

/-- A concrete material title. -/
def tW : String := "Quijote"

/-- A concrete material category. -/
def cW : String := "Libro"

/-- The empty state (a fresh `BaseDatos` with no backing files). -/
def db0 : BaseDatos := ⟨[], [], []⟩

/-- One member and one zero-stock material, no loans. -/
def dbS0 : BaseDatos := ⟨[⟨dW, nW⟩], [⟨tW, cW, 0⟩], []⟩

/-- One member, one zero-stock material and one open loan for it. -/
def dbL : BaseDatos := ⟨[⟨dW, nW⟩], [⟨tW, cW, 0⟩], [⟨dW, tW, 0⟩]⟩

/-- One member, one single-copy material and one pre-existing open loan for
the same (document, title) pair. -/
def dbC4 : BaseDatos := ⟨[⟨dW, nW⟩], [⟨tW, cW, 1⟩], [⟨dW, tW, 0⟩]⟩

/-- One member, one single-copy material, no loans. -/
def dbW4 : BaseDatos := ⟨[⟨dW, nW⟩], [⟨tW, cW, 1⟩], []⟩

/-! Helper lemmas about the list operations used by the manager. -/

theorem vencidosDesde_eq_filterMap (now : Int) :
    ∀ l : List Prestamo,
      vencidosDesde now l =
        l.filterMap fun p =>
          if calcular_multa p now > 0 then some (p, calcular_multa p now) else none
  | [] => rfl
  | p :: ps => by
    rw [List.filterMap_cons]
    by_cases h : calcular_multa p now > 0
    · rw [vencidosDesde, if_pos h, if_pos h, vencidosDesde_eq_filterMap now ps]
    · rw [vencidosDesde, if_neg h, if_neg h, vencidosDesde_eq_filterMap now ps]

theorem removeFirstEq_eq_eraseP {f : Prestamo → Bool} :
    ∀ (l : List Prestamo) (p : Prestamo), l.find? f = some p →
      removeFirstEq l p = l.eraseP f
  | [], p, h => by simp at h
  | q :: qs, p, h => by
    by_cases hq : f q = true
    · rw [List.find?_cons_of_pos _ hq] at h
      injection h with h
      subst h
      rw [List.eraseP_cons_of_pos hq]
      simp [removeFirstEq]
    · rw [List.find?_cons_of_neg _ hq] at h
      have hne : q ≠ p := by
        intro hqp
        rw [hqp] at hq
        exact hq (List.find?_some h)
      rw [List.eraseP_cons_of_neg hq, removeFirstEq, if_neg hne,
        removeFirstEq_eq_eraseP qs p h]

theorem removeFirstEq_append {f : Prestamo → Bool} (l : List Prestamo) (p : Prestamo)
    (h : l.find? f = none) (hp : f p = true) :
    removeFirstEq (l ++ [p]) p = l := by
  have hfind : (l ++ [p]).find? f = some p := by
    rw [List.find?_append, h]
    simp [List.find?_cons_of_pos _ hp]
  rw [removeFirstEq_eq_eraseP _ _ hfind,
    List.eraseP_append_right _ (fun b hb => (List.find?_eq_none.mp h) b hb),
    List.eraseP_cons_of_pos hp, List.append_nil]

theorem incStockFirst_decStockFirst :
    ∀ (ms : List Material) (t : String),
      incStockFirst (decStockFirst ms t) t = ms
  | [], _ => rfl
  | ⟨t0, c0, s0⟩ :: ms, t => by
    by_cases h : (t0 == t) = true
    · rw [decStockFirst, if_pos h, incStockFirst, if_pos h]
      show (⟨t0, c0, s0 - 1 + 1⟩ : Material) :: ms = ⟨t0, c0, s0⟩ :: ms
      congr 2
      omega
    · rw [decStockFirst, if_neg h, incStockFirst, if_neg h,
        incStockFirst_decStockFirst ms t]

theorem decStockFirst_find? :
    ∀ (ms : List Material) (t : String) (m : Material),
      ms.find? (matchMaterial t) = some m →
      (decStockFirst ms t).find? (matchMaterial t) =
        some { m with stock := m.stock - 1 }
  | [], _, _, h => by simp at h
  | m0 :: ms, t, m, h => by
    by_cases h0 : (m0.titulo == t) = true
    · rw [List.find?_cons_of_pos _ (show matchMaterial t m0 = true from h0)] at h
      injection h with h
      subst h
      rw [decStockFirst, if_pos h0]
      exact List.find?_cons_of_pos _ (show matchMaterial t _ = true from h0)
    · rw [List.find?_cons_of_neg _ (show ¬ matchMaterial t m0 = true from h0)] at h
      rw [decStockFirst, if_neg h0,
        List.find?_cons_of_neg _ (show ¬ matchMaterial t m0 = true from h0)]
      exact decStockFirst_find? ms t m h

theorem decStockFirst_nonneg :
    ∀ (ms : List Material) (t : String),
      (∀ x ∈ ms, 0 ≤ x.stock) →
      (∀ m, ms.find? (matchMaterial t) = some m → 0 < m.stock) →
      ∀ x ∈ decStockFirst ms t, 0 ≤ x.stock
  | [], _, _, _ => by intro x hx; simp [decStockFirst] at hx
  | m0 :: ms, t, hall, hfind => by
    intro x hx
    by_cases h0 : (m0.titulo == t) = true
    · rw [decStockFirst, if_pos h0] at hx
      rcases List.mem_cons.mp hx with h | h
      · subst h
        have h1 := hfind m0
          (List.find?_cons_of_pos _ (show matchMaterial t m0 = true from h0))
        show 0 ≤ m0.stock - 1
        omega
      · exact hall x (List.mem_cons_of_mem _ h)
    · rw [decStockFirst, if_neg h0] at hx
      rcases List.mem_cons.mp hx with h | h
      · rw [h]
        exact hall m0 (List.mem_cons_self _ _)
      · refine decStockFirst_nonneg ms t
          (fun y hy => hall y (List.mem_cons_of_mem _ hy)) ?_ x h
        intro m hm
        refine hfind m ?_
        rw [List.find?_cons_of_neg _ (show ¬ matchMaterial t m0 = true from h0)]
        exact hm

theorem incStockFirst_nonneg :
    ∀ (ms : List Material) (t : String),
      (∀ x ∈ ms, 0 ≤ x.stock) →
      ∀ x ∈ incStockFirst ms t, 0 ≤ x.stock
  | [], _, _ => by intro x hx; simp [incStockFirst] at hx
  | m0 :: ms, t, hall => by
    intro x hx
    by_cases h0 : (m0.titulo == t) = true
    · rw [incStockFirst, if_pos h0] at hx
      rcases List.mem_cons.mp hx with h | h
      · subst h
        have h1 := hall m0 (List.mem_cons_self _ _)
        show 0 ≤ m0.stock + 1
        omega
      · exact hall x (List.mem_cons_of_mem _ h)
    · rw [incStockFirst, if_neg h0] at hx
      rcases List.mem_cons.mp hx with h | h
      · rw [h]
        exact hall m0 (List.mem_cons_self _ _)
      · exact incStockFirst_nonneg ms t
          (fun y hy => hall y (List.mem_cons_of_mem _ hy)) x h

theorem socioFromDict_asdict (s : Socio) : socioFromDict (asdictSocio s) = some s := rfl

theorem materialFromDict_asdict (m : Material) :
    materialFromDict (asdictMaterial m) = some m := rfl

theorem prestamoFromDict_asdict (p : Prestamo) :
    prestamoFromDict (asdictPrestamo p) = some p := rfl

theorem parseLista_map {α : Type} (f : Registro → Option α) (g : α → Registro)
    (hfg : ∀ x, f (g x) = some x) :
    ∀ l : List α, parseLista f (l.map g) = some l
  | [] => rfl
  | x :: xs => by
    rw [List.map_cons, parseLista, hfg x, parseLista_map f g hfg xs]

/-! Claim theorems. -/

/-- Claim C2: the fine is a pure function of the loan timestamp and the clock;
it is 0 everywhere in the seven-day window and one hour past it, 3000 at nine
days, and in general floor of the overdue seconds in days times 1500 once the
deadline has passed. -/
theorem calcular_multa_spec (p : Prestamo) (now : Int) :
    (p.fecha ≤ now → now ≤ p.fecha + DIAS_LIMITE * SEG_DIA → calcular_multa p now = 0) ∧
    (calcular_multa p (p.fecha + DIAS_LIMITE * SEG_DIA + 3600) = 0) ∧
    (calcular_multa p (p.fecha + 9 * SEG_DIA) = 2 * MULTA_DIA) ∧
    (p.fecha + DIAS_LIMITE * SEG_DIA < now →
      calcular_multa p now =
        Int.fdiv (now - (p.fecha + DIAS_LIMITE * SEG_DIA)) SEG_DIA * MULTA_DIA) ∧
    (∀ q : Prestamo, q.fecha = p.fecha → calcular_multa q now = calcular_multa p now) := by
  refine ⟨?_, ?_, ?_, ?_, ?_⟩
  · intro _ h2
    rw [calcular_multa, if_pos h2]
  · rw [calcular_multa,
      if_neg (not_le.mpr (lt_add_of_pos_right _ (by norm_num : (0 : Int) < 3600)))]
    have h3 : p.fecha + DIAS_LIMITE * SEG_DIA + 3600 -
        (p.fecha + DIAS_LIMITE * SEG_DIA) = 3600 := by ring
    rw [h3]
    simp only [SEG_DIA, MULTA_DIA]
    decide
  · rw [calcular_multa, if_neg (by simp only [DIAS_LIMITE, SEG_DIA]; omega)]
    have h3 : p.fecha + 9 * SEG_DIA - (p.fecha + DIAS_LIMITE * SEG_DIA) = 172800 := by
      simp only [DIAS_LIMITE, SEG_DIA]
      ring
    rw [h3]
    simp only [SEG_DIA, MULTA_DIA]
    decide
  · intro h
    rw [calcular_multa, if_neg (not_le.mpr h)]
  · intro q hq
    rw [calcular_multa, calcular_multa, hq]

/-- Witness for C2 at a concrete loan and clock value. -/
theorem calcular_multa_spec_witness : calcular_multa ⟨dW, tW, 0⟩ 100 = 0 :=
  (calcular_multa_spec ⟨dW, tW, 0⟩ 100).1 (by decide) (by decide)

/-- Claim C3: a failing prestar changes nothing, and against a material whose
stock is not positive it fails with the out-of-stock message, state intact. -/
theorem prestar_atomic (db : BaseDatos) (doc titulo : String) (now : Int) :
    (∀ e, (prestar db doc titulo now).1 = some e → (prestar db doc titulo now).2 = db) ∧
    (∀ m, (db.socios.find? (matchSocio doc)).isSome = true →
      db.materiales.find? (matchMaterial titulo) = some m →
      m.stock ≤ 0 →
      prestar db doc titulo now = (some msgSinStock, db)) := by
  constructor
  · intro e he
    unfold prestar at he ⊢
    cases hs : db.socios.find? (matchSocio doc) with
    | none => rfl
    | some s =>
      cases hm : db.materiales.find? (matchMaterial titulo) with
      | none => rfl
      | some m =>
        rw [hs, hm] at he
        dsimp only at he ⊢
        by_cases hst : m.stock ≤ 0
        · rw [if_pos hst]
        · rw [if_neg hst] at he
          simp at he
  · intro m hs hm hst
    obtain ⟨s, hs2⟩ := Option.isSome_iff_exists.mp hs
    unfold prestar
    rw [hs2, hm]
    dsimp only
    rw [if_pos hst]

/-- Witness for C3: lending from a zero-stock material fails and keeps the
state. -/
theorem prestar_atomic_witness :
    prestar dbS0 dW tW 0 = (some msgSinStock, dbS0) :=
  (prestar_atomic dbS0 dW tW 0).2 ⟨tW, cW, 0⟩ (by decide) (by decide) (by decide)

/-- Claim C7: registering a member whose document already exists fails with
the duplicate message and returns the member collection unchanged. -/
theorem registrar_socio_dup (db : BaseDatos) (nombre doc : String)
    (h : ∃ s ∈ db.socios, s.documento = doc) :
    registrar_socio db nombre doc = (some msgSocioDup, db) := by
  have hc : db.socios.any (matchSocio doc) = true := by
    rw [List.any_eq_true]
    obtain ⟨s, hs, hd⟩ := h
    exact ⟨s, hs, by simp [matchSocio, hd]⟩
  unfold registrar_socio
  rw [if_pos hc]

/-- Witness for C7 on a concrete duplicate registration. -/
theorem registrar_socio_dup_witness :
    registrar_socio dbS0 nW dW = (some msgSocioDup, dbS0) :=
  registrar_socio_dup dbS0 nW dW ⟨⟨dW, nW⟩, by decide, rfl⟩

/-- Claim C8: prestamos_vencidos returns exactly the loans whose fine is
positive, paired with the fine, in collection order; it is a pure function of
the state and the clock, so it modifies nothing. -/
theorem prestamos_vencidos_spec (db : BaseDatos) (now : Int) :
    prestamos_vencidos db now =
      db.prestamos.filterMap fun p =>
        if calcular_multa p now > 0 then some (p, calcular_multa p now) else none :=
  vencidosDesde_eq_filterMap now db.prestamos

/-- Claim C9: for a loan whose timestamp is not after the clock the fine is
non-negative and a multiple of MULTA_DIA. -/
theorem calcular_multa_nonneg (p : Prestamo) (now : Int) (h : p.fecha ≤ now) :
    0 ≤ calcular_multa p now ∧ MULTA_DIA ∣ calcular_multa p now := by
  rw [calcular_multa]
  by_cases hle : now ≤ p.fecha + DIAS_LIMITE * SEG_DIA
  · rw [if_pos hle]
    exact ⟨le_refl 0, dvd_zero _⟩
  · rw [if_neg hle]
    constructor
    · refine mul_nonneg ?_ (by decide : (0 : Int) ≤ MULTA_DIA)
      rw [Int.fdiv_eq_ediv _ (by decide : (0 : Int) ≤ SEG_DIA)]
      refine Int.ediv_nonneg ?_ (by decide : (0 : Int) ≤ SEG_DIA)
      have h2 : p.fecha + DIAS_LIMITE * SEG_DIA < now := not_le.mp hle
      linarith
    · exact dvd_mul_left _ _

/-- Witness for C9 at a concrete loan and clock value. -/
theorem calcular_multa_nonneg_witness :
    0 ≤ calcular_multa ⟨dW, tW, 0⟩ 1000000 ∧
      MULTA_DIA ∣ calcular_multa ⟨dW, tW, 0⟩ 1000000 :=
  calcular_multa_nonneg ⟨dW, tW, 0⟩ 1000000 (by decide)

/-- Claim C10: registration operations leave the unrelated collections
untouched, on success and on the duplicate error alike. -/
theorem registrar_frame (db : BaseDatos) (nombre doc titulo categoria : String)
    (stock : Int) :
    (registrar_socio db nombre doc).2.materiales = db.materiales ∧
    (registrar_socio db nombre doc).2.prestamos = db.prestamos ∧
    (registrar_material db titulo categoria stock).2.socios = db.socios ∧
    (registrar_material db titulo categoria stock).2.prestamos = db.prestamos := by
  unfold registrar_socio registrar_material
  refine ⟨?_, ?_, ?_, ?_⟩ <;> split <;> rfl

/-- Claim C1 counterexample: registrar_material trusts the caller-supplied
stock, so from the empty state (where every stock is trivially non-negative)
registering with stock -1 succeeds and yields a state with a negative stock. -/
theorem stock_nonneg_cex :
    (∀ m ∈ db0.materiales, 0 ≤ m.stock) ∧
    (registrar_material db0 tW cW (-1)).1 = none ∧
    ¬ (∀ m ∈ (registrar_material db0 tW cW (-1)).2.materiales, 0 ≤ m.stock) := by
  decide

/-- Claim C1 (amended): starting from a state in which every stock is
non-negative, prestar and devolver preserve that for all inputs, and
registrar_material preserves it whenever the caller-supplied stock is itself
non-negative. -/
theorem stock_nonneg_preserved (db : BaseDatos)
    (h : ∀ m ∈ db.materiales, 0 ≤ m.stock) :
    (∀ titulo categoria stock, 0 ≤ stock →
      ∀ m ∈ (registrar_material db titulo categoria stock).2.materiales, 0 ≤ m.stock) ∧
    (∀ doc titulo now,
      ∀ m ∈ (prestar db doc titulo now).2.materiales, 0 ≤ m.stock) ∧
    (∀ doc titulo now,
      ∀ m ∈ (devolver db doc titulo now).2.materiales, 0 ≤ m.stock) := by
  refine ⟨?_, ?_, ?_⟩
  · intro t c s hs m hm
    unfold registrar_material at hm
    by_cases hdup : db.materiales.any (matchMaterial t) = true
    · rw [if_pos hdup] at hm
      exact h m hm
    · rw [if_neg hdup] at hm
      rcases List.mem_append.mp hm with h1 | h1
      · exact h m h1
      · rw [List.mem_singleton.mp h1]
        exact hs
  · intro doc t now m hm
    unfold prestar at hm
    cases hfs : db.socios.find? (matchSocio doc) with
    | none => rw [hfs] at hm; exact h m hm
    | some s =>
      rw [hfs] at hm
      cases hfm : db.materiales.find? (matchMaterial t) with
      | none => rw [hfm] at hm; exact h m hm
      | some mat =>
        rw [hfm] at hm
        dsimp only at hm
        by_cases hst : mat.stock ≤ 0
        · rw [if_pos hst] at hm
          exact h m hm
        · rw [if_neg hst] at hm
          refine decStockFirst_nonneg db.materiales t h ?_ m hm
          intro m2 hm2
          rw [hfm] at hm2
          injection hm2 with hm2
          rw [← hm2]
          omega
  · intro doc t now m hm
    unfold devolver at hm
    cases hfp : db.prestamos.find? (matchPrestamo doc t) with
    | none => rw [hfp] at hm; exact h m hm
    | some p =>
      rw [hfp] at hm
      cases hfm : db.materiales.find? (matchMaterial t) with
      | none => rw [hfm] at hm; exact h m hm
      | some mat =>
        rw [hfm] at hm
        exact incStockFirst_nonneg db.materiales t h m hm

/-- Witness for the amended C1 on a concrete state and registration,
instantiated at the newly registered material. -/
theorem stock_nonneg_preserved_witness :
    0 ≤ (⟨cW, cW, (2 : Int)⟩ : Material).stock :=
  (stock_nonneg_preserved dbS0 (by decide)).1 cW cW 2 (by decide)
    ⟨cW, cW, 2⟩ (by decide)

/-- Claim C4 counterexample: in a state satisfying all the claim premises
(registered member, material with positive stock) but holding a pre-existing
loan for the same pair, lend then return restores the stock yet leaves a loan
collection different from the original (the old loan was removed, the new one
kept). -/
theorem lend_return_cex :
    ((dbC4.socios.find? (matchSocio dW)).isSome = true) ∧
    (dbC4.materiales.find? (matchMaterial tW) = some ⟨tW, cW, 1⟩) ∧
    ((0 : Int) < (1 : Int)) ∧
    ((prestar dbC4 dW tW 5).1 = none) ∧
    ((devolver (prestar dbC4 dW tW 5).2 dW tW 10).2.materiales = dbC4.materiales) ∧
    ¬ ((devolver (prestar dbC4 dW tW 5).2 dW tW 10).2.prestamos = dbC4.prestamos) := by
  decide

/-- Claim C4 (amended): when additionally no (doc, titulo) loan pre-exists,
lend then return restores the entire prior state exactly, and a second return
then fails with the missing-loan error. -/
theorem lend_return_roundtrip (db : BaseDatos) (doc titulo : String)
    (now now2 now3 : Int) (m : Material)
    (hs : (db.socios.find? (matchSocio doc)).isSome = true)
    (hm : db.materiales.find? (matchMaterial titulo) = some m)
    (hstock : 0 < m.stock)
    (hloan : db.prestamos.find? (matchPrestamo doc titulo) = none) :
    (prestar db doc titulo now).1 = none ∧
    (devolver (prestar db doc titulo now).2 doc titulo now2).2 = db ∧
    (devolver ((devolver ((prestar db doc titulo now).2) doc titulo now2).2)
        doc titulo now3).1 = Except.error msgPrestamoNoExiste := by
  obtain ⟨s, hs2⟩ := Option.isSome_iff_exists.mp hs
  have hps : prestar db doc titulo now =
      (none, { db with
        materiales := decStockFirst db.materiales titulo,
        prestamos := db.prestamos ++ [⟨doc, titulo, now⟩] }) := by
    unfold prestar
    rw [hs2, hm]
    dsimp only
    rw [if_neg (by omega)]
  have hfind1 : (db.prestamos ++ [(⟨doc, titulo, now⟩ : Prestamo)]).find?
        (matchPrestamo doc titulo)
      = some (⟨doc, titulo, now⟩ : Prestamo) := by
    rw [List.find?_append, hloan]
    simp [matchPrestamo]
  have hmat1 : (decStockFirst db.materiales titulo).find? (matchMaterial titulo)
      = some { m with stock := m.stock - 1 } :=
    decStockFirst_find? db.materiales titulo m hm
  have hrm : removeFirstEq (db.prestamos ++ [(⟨doc, titulo, now⟩ : Prestamo)])
        (⟨doc, titulo, now⟩ : Prestamo)
      = db.prestamos :=
    removeFirstEq_append db.prestamos _ hloan (by simp [matchPrestamo])
  have hdv : devolver (prestar db doc titulo now).2 doc titulo now2 =
      (Except.ok (calcular_multa (⟨doc, titulo, now⟩ : Prestamo) now2), db) := by
    rw [hps]
    unfold devolver
    dsimp only
    rw [hfind1]
    dsimp only
    rw [hmat1]
    dsimp only
    rw [hrm, incStockFirst_decStockFirst]
  refine ⟨by rw [hps], by rw [hdv], ?_⟩
  rw [hdv]
  unfold devolver
  dsimp only
  rw [hloan]

/-- Witness for the amended C4 on a concrete fresh lend/return pair. -/
theorem lend_return_roundtrip_witness :
    (devolver (prestar dbW4 dW tW 5).2 dW tW 10).2 = dbW4 :=
  (lend_return_roundtrip dbW4 dW tW 5 10 20 ⟨tW, cW, 1⟩
    (by decide) (by decide) (by decide) (by decide)).2.1

/-- Claim C5: saving the three collections and loading them back reproduces
them exactly (same records, same order), and absent backing documents load as
empty collections. -/
theorem persistencia_roundtrip (db : BaseDatos) :
    cargar_datos (guardar_datos db) = some db ∧
    cargar_datos ⟨none, none, none⟩ = some ⟨[], [], []⟩ := by
  constructor
  · simp only [cargar_datos, guardar_datos, cargarColeccion]
    rw [parseLista_map socioFromDict asdictSocio socioFromDict_asdict db.socios,
      parseLista_map materialFromDict asdictMaterial materialFromDict_asdict db.materiales,
      parseLista_map prestamoFromDict asdictPrestamo prestamoFromDict_asdict db.prestamos]
  · rfl

/-- Claim C6: with at least one matching loan and an existing material of that
title, devolver removes exactly the earliest-inserted matching loan, bumps
the stock of that title by one, and returns the fine of the removed loan; with no
matching loan it fails with the missing-loan error and changes nothing. -/
theorem devolver_spec (db : BaseDatos) (doc titulo : String) (now : Int) :
    (db.prestamos.find? (matchPrestamo doc titulo) = none →
      devolver db doc titulo now = (Except.error msgPrestamoNoExiste, db)) ∧
    (∀ p, db.prestamos.find? (matchPrestamo doc titulo) = some p →
      (∃ m ∈ db.materiales, m.titulo = titulo) →
      devolver db doc titulo now =
        (Except.ok (calcular_multa p now),
         { db with
            prestamos := db.prestamos.eraseP (matchPrestamo doc titulo),
            materiales := incStockFirst db.materiales titulo })) := by
  constructor
  · intro h
    unfold devolver
    rw [h]
  · intro p hp hm
    have hsome : ∃ m0, db.materiales.find? (matchMaterial titulo) = some m0 := by
      rw [← Option.isSome_iff_exists, List.find?_isSome]
      obtain ⟨m, hmem, hmt⟩ := hm
      exact ⟨m, hmem, by simp [matchMaterial, hmt]⟩
    obtain ⟨m0, hm0⟩ := hsome
    unfold devolver
    rw [hp]
    dsimp only
    rw [hm0]
    dsimp only
    rw [removeFirstEq_eq_eraseP db.prestamos p hp]

/-- Witness for C6 on a concrete state with one matching loan. -/
theorem devolver_spec_witness :
    devolver dbL dW tW 100 =
      (Except.ok (calcular_multa ⟨dW, tW, 0⟩ 100),
       { dbL with
          prestamos := dbL.prestamos.eraseP (matchPrestamo dW tW),
          materiales := incStockFirst dbL.materiales tW }) :=
  (devolver_spec dbL dW tW 100).2 ⟨dW, tW, 0⟩ (by decide) ⟨⟨tW, cW, 0⟩, by decide, rfl⟩

end Biblioteca
